import Mathlib

/-
Verification of the Crazy Eights game engine (src/src/App.tsx) against its
natural-language specification.  The domain enumerations and the deck builder
live in files that are not part of the source tree (src/types.ts and
src/constants.ts); those are modelled from the spec.  All game logic
(canPlay, drawCard, playCard, the AI turn, initGame, the click-handler
gates) is embedded from src/src/App.tsx.  Timer callbacks (setTimeout) are
collapsed into the atomic operation that schedules them, and each deferred
callback reads the state produced by the synchronous part of that operation.
-/

namespace CrazyEights

/-- Modelled from the spec: the four suits (missing file src/types.ts, enum Suit). -/
inductive Suit where
  | hearts
  | diamonds
  | clubs
  | spades
deriving DecidableEq

/-- Modelled from the spec: the thirteen ranks, Eight being the wild rank
(missing file src/types.ts, enum Rank). -/
inductive Rank where
  | ace | two | three | four | five | six | seven | eight
  | nine | ten | jack | queen | king
deriving DecidableEq

/-- Modelled from the spec: a card with a stable unique identifier
(missing file src/types.ts, interface CardData). -/
structure Card where
  id : Nat
  suit : Suit
  rank : Rank
deriving DecidableEq

/-- Turn owner, from src/types.ts as used by App.tsx ('player' | 'ai'). -/
inductive Turn where
  | player
  | ai
deriving DecidableEq

/-- Game status, from src/types.ts as used by App.tsx
('playing' | 'player_won' | 'ai_won'). -/
inductive GameStatus where
  | playing
  | player_won
  | ai_won
deriving DecidableEq

/-- Modelled from the spec: display name of a suit (string enum values). -/
def suitName : Suit → String
  | .hearts => "Hearts"
  | .diamonds => "Diamonds"
  | .clubs => "Clubs"
  | .spades => "Spades"

/-- Modelled from the spec: display name of a rank (string enum values). -/
def rankName : Rank → String
  | .ace => "A"
  | .two => "2"
  | .three => "3"
  | .four => "4"
  | .five => "5"
  | .six => "6"
  | .seven => "7"
  | .eight => "8"
  | .nine => "9"
  | .ten => "10"
  | .jack => "J"
  | .queen => "Q"
  | .king => "K"

def allSuits : List Suit := [.hearts, .diamonds, .clubs, .spades]

def allRanks : List Rank :=
  [.ace, .two, .three, .four, .five, .six, .seven, .eight,
   .nine, .ten, .jack, .queen, .king]

/-- Modelled from the spec: createDeck from the missing deck-utilities file
(src/constants.ts): an ordered sequence of 52 cards, one per (suit, rank)
pair, each with a fresh unique identifier. -/
def createDeck : List Card :=
  ((allSuits.flatMap (fun s => allRanks.map (fun r => (s, r)))).enum).map
    (fun p => { id := p.1, suit := p.2.1, rank := p.2.2 })

/-- The React state of App.tsx (the transient isAiThinking display flag is
omitted: it is set and cleared inside one atomic AI step). -/
structure GameState where
  deck : List Card
  playerHand : List Card
  aiHand : List Card
  discardPile : List Card
  currentSuit : Option Suit
  turn : Turn
  status : GameStatus
  showSuitSelector : Bool
  message : String
deriving DecidableEq

/-- App.tsx canPlay, lines 68-72.  For a non-Eight card the code reads
discardPile[discardPile.length - 1]; when the pile is empty that access
yields no card (the JS code would fault), which we model as none. -/
def canPlayChecked (currentSuit : Option Suit) (discardPile : List Card)
    (card : Card) : Option Bool :=
  if card.rank = Rank.eight then some true
  else
    discardPile.getLast?.map
      (fun top => decide (some card.suit = currentSuit) || decide (card.rank = top.rank))

/-- Boolean form of canPlay as used by the callers (in every reachable state
the discard pile is non-empty, so the none case never arises there). -/
def canPlayB (currentSuit : Option Suit) (discardPile : List Card)
    (card : Card) : Bool :=
  decide (canPlayChecked currentSuit discardPile card = some true)

/-- App.tsx: target === 'player' ? 'ai' : 'player'. -/
def otherTurn : Turn → Turn
  | .player => .ai
  | .ai => .player

/-- App.tsx drawCard, lines 74-97.  newDeck.pop() removes the last element
of the deck array; the turn handoff scheduled by setTimeout when the drawn
card is unplayable is applied atomically. -/
def drawCard (target : Turn) (s : GameState) : GameState :=
  match s.deck.getLast? with
  | none =>
    { s with message := "Deck is empty! Skipping turn.", turn := otherTurn target }
  | some drawn =>
    let newDeck := s.deck.dropLast
    match target with
    | .player =>
      let s1 := { s with deck := newDeck,
                         playerHand := s.playerHand ++ [drawn],
                         message := "You drew a card." }
      if canPlayB s.currentSuit s.discardPile drawn then s1
      else { s1 with turn := .ai }
    | .ai =>
      { s with deck := newDeck,
               aiHand := s.aiHand ++ [drawn],
               message := "AI drew a card." }

/-- App.tsx checkWin, lines 54-66: player-empty is checked first. -/
def checkWin (s : GameState) : GameState × Bool :=
  if s.playerHand.length = 0 then
    ({ s with status := .player_won, message := "Congratulations! You won!" }, true)
  else if s.aiHand.length = 0 then
    ({ s with status := .ai_won, message := "AI won! Better luck next time." }, true)
  else (s, false)

/-- The deferred `if (!checkWin()) setTurn(next)` pattern of App.tsx. -/
def finishTurn (next : Turn) (s : GameState) : GameState :=
  if (checkWin s).2 then (checkWin s).1 else { (checkWin s).1 with turn := next }

/-- App.tsx: hand.filter(c => c.id !== card.id). -/
def removeById (hand : List Card) (card : Card) : List Card :=
  hand.filter (fun c => decide (¬ c.id = card.id))

/-- App.tsx playCard lines 115-118: suitCounts is a JS object whose keys are
inserted in order of first occurrence of each suit in the iterated hand. -/
def insertKey (k : Suit) (ks : List Suit) : List Suit :=
  if k ∈ ks then ks else ks ++ [k]

/-- The key list of the suitCounts object, in insertion order. -/
def suitKeys (hand : List Card) : List Suit :=
  hand.foldl (fun ks c => insertKey c.suit ks) []

/-- suitCounts[su]: how many cards of suit su the iterated hand holds. -/
def suitCount (hand : List Card) (su : Suit) : Nat :=
  hand.countP (fun c => decide (c.suit = su))

/-- Head of Object.keys(suitCounts).sort((a, b) => suitCounts[b] - suitCounts[a]):
JS sort is stable, so the head is the earliest key attaining the maximal count. -/
def firstMaxBy (cnt : Suit → Nat) : List Suit → Option Suit
  | [] => none
  | k :: ks =>
    match firstMaxBy cnt ks with
    | none => some k
    | some m => if cnt k < cnt m then some m else some k

/-- App.tsx playCard line 119: the AI's suit choice over the iterated hand,
defaulting to Spades when the object has no keys (empty hand). -/
def bestSuit (hand : List Card) : Suit :=
  (firstMaxBy (suitCount hand) (suitKeys hand)).getD .spades

/-- App.tsx playCard, lines 99-132.  Note that in the AI-Eight branch the
code iterates the aiHand state variable captured by the render closure,
i.e. the hand BEFORE the played card was filtered out. -/
def playCard (card : Card) (target : Turn) (s : GameState) : GameState :=
  let s1 :=
    match target with
    | .player => { s with playerHand := removeById s.playerHand card }
    | .ai => { s with aiHand := removeById s.aiHand card }
  let s2 := { s1 with discardPile := s.discardPile ++ [card],
                      currentSuit := some card.suit }
  if card.rank = Rank.eight then
    match target with
    | .player =>
      { s2 with showSuitSelector := true, message := "Choose a new suit!" }
    | .ai =>
      let chosen := bestSuit s.aiHand
      finishTurn .player
        { s2 with currentSuit := some chosen,
                  message := "AI played an 8 and chose " ++ suitName chosen ++ "!" }
  else
    finishTurn (otherTurn target)
      { s2 with message :=
          (match target with | .player => "You" | .ai => "AI") ++ " played " ++
          rankName card.rank ++ " of " ++ suitName card.suit ++ "." }

/-- App.tsx handleSuitSelect, lines 164-171. -/
def handleSuitSelect (su : Suit) (s : GameState) : GameState :=
  finishTurn .ai
    { s with currentSuit := some su,
             showSuitSelector := false,
             message := "You chose " ++ suitName su ++ "!" }

/-- App.tsx AI turn effect body, lines 135-162: filter the playable cards,
prefer the first playable non-Eight, otherwise the first playable card;
with no playable card, draw (if possible) and end the turn unconditionally,
else skip. -/
def aiTurn (s : GameState) : GameState :=
  let playable := s.aiHand.filter (fun c => canPlayB s.currentSuit s.discardPile c)
  let nonEights := playable.filter (fun c => decide (¬ c.rank = Rank.eight))
  match nonEights, playable with
  | c :: _, _ => playCard c .ai s
  | [], c :: _ => playCard c .ai s
  | [], [] =>
    if s.deck.length > 0 then
      { drawCard .ai s with turn := .player }
    else
      { s with message := "AI has no moves and deck is empty. Skipping.",
               turn := .player }

/-- App.tsx initGame, lines 26-48: the while loop scanning for the first
non-Eight, followed by splice(firstDiscardIndex, 1).  Returns the removed
card and the deck with it removed; none when every card is an Eight (the
JS loop would fault there). -/
def findFirstNonEight : List Card → Option (Card × List Card)
  | [] => none
  | c :: rest =>
    if c.rank = Rank.eight then
      (findFirstNonEight rest).map (fun p => (p.1, c :: p.2))
    else
      some (c, rest)

/-- App.tsx initGame, lines 26-48, parametrised by the shuffled deck
(shuffleDeck(createDeck()) lives in the missing src/constants.ts). -/
def initGame (d : List Card) : Option GameState :=
  let pHand := d.take 8
  let aHand := (d.drop 8).take 8
  let rest := d.drop 16
  (findFirstNonEight rest).map (fun p =>
    { deck := p.2
      playerHand := pHand
      aiHand := aHand
      discardPile := [p.1]
      currentSuit := some p.1.suit
      turn := .player
      status := .playing
      showSuitSelector := false
      message := "Your turn! Match the suit or rank." })

/-- One user-visible or timer-driven move, with the gates App.tsx puts on
each entry point: a player click on a hand card (lines 300-310, gated on
turn, status and canPlay, and only over cards in the hand), a click on the
draw pile (lines 224-229), the suit-selection dialog (shown exactly when
showSuitSelector is set), and the AI effect (lines 135-162). -/
inductive Step : GameState → GameState → Prop
  | playerPlay (s : GameState) (c : Card) :
      s.turn = .player → s.status = .playing →
      canPlayB s.currentSuit s.discardPile c = true →
      c ∈ s.playerHand →
      Step s (playCard c .player s)
  | playerDraw (s : GameState) :
      s.turn = .player → s.status = .playing →
      Step s (drawCard .player s)
  | selectSuit (s : GameState) (su : Suit) :
      s.showSuitSelector = true →
      Step s (handleSuitSelect su s)
  | aiMove (s : GameState) :
      s.turn = .ai → s.status = .playing →
      Step s (aiTurn s)

/-- States reachable from setup on the shuffled deck d. -/
def Reachable (d : List Card) (s : GameState) : Prop :=
  ∃ s0, initGame d = some s0 ∧ Relation.ReflTransGen Step s0 s

/-- All cards in play, across the four containers. -/
def allCards (s : GameState) : List Card :=
  s.deck ++ s.playerHand ++ s.aiHand ++ s.discardPile

@[simp] lemma finishTurn_deck (next : Turn) (s : GameState) :
    (finishTurn next s).deck = s.deck := by
  unfold finishTurn checkWin; split_ifs <;> rfl

@[simp] lemma finishTurn_playerHand (next : Turn) (s : GameState) :
    (finishTurn next s).playerHand = s.playerHand := by
  unfold finishTurn checkWin; split_ifs <;> rfl

@[simp] lemma finishTurn_aiHand (next : Turn) (s : GameState) :
    (finishTurn next s).aiHand = s.aiHand := by
  unfold finishTurn checkWin; split_ifs <;> rfl

@[simp] lemma finishTurn_discardPile (next : Turn) (s : GameState) :
    (finishTurn next s).discardPile = s.discardPile := by
  unfold finishTurn checkWin; split_ifs <;> rfl

@[simp] lemma finishTurn_currentSuit (next : Turn) (s : GameState) :
    (finishTurn next s).currentSuit = s.currentSuit := by
  unfold finishTurn checkWin; split_ifs <;> rfl

@[simp] lemma finishTurn_showSuitSelector (next : Turn) (s : GameState) :
    (finishTurn next s).showSuitSelector = s.showSuitSelector := by
  unfold finishTurn checkWin; split_ifs <;> rfl

lemma finishTurn_status (next : Turn) (s : GameState) :
    (finishTurn next s).status = s.status ∨
    (finishTurn next s).status = GameStatus.player_won ∨
    (finishTurn next s).status = GameStatus.ai_won := by
  unfold finishTurn checkWin
  split_ifs <;> simp_all

@[simp] lemma allCards_finishTurn (next : Turn) (s : GameState) :
    allCards (finishTurn next s) = allCards s := by
  simp [allCards]

/-- Claim C1: a held card is playable exactly when its rank is Eight, or its
suit equals the current Active Suit, or its rank equals the rank of the top
discard card; rank match and suit match are independent sufficient
conditions. -/
theorem claim_C1_legality (cs : Option Suit) (dp : List Card) (top c : Card)
    (h : dp.getLast? = some top) :
    canPlayChecked cs dp c = some true ↔
      (c.rank = Rank.eight ∨ some c.suit = cs ∨ c.rank = top.rank) := by
  by_cases h8 : c.rank = Rank.eight <;> simp [canPlayChecked, h, h8]

/-- Claim C1 witness: with Active Suit Diamonds and a 7 of Hearts on top of
the discard pile, the 7 of Clubs is playable by rank match. -/
theorem claim_C1_legality_witness :
    canPlayChecked (some Suit.diamonds) [⟨0, Suit.hearts, Rank.seven⟩]
      ⟨1, Suit.clubs, Rank.seven⟩ = some true :=
  (claim_C1_legality (some Suit.diamonds) [⟨0, Suit.hearts, Rank.seven⟩]
      ⟨0, Suit.hearts, Rank.seven⟩ ⟨1, Suit.clubs, Rank.seven⟩ rfl).mpr
    (Or.inr (Or.inr rfl))

/-- Claim C5: a draw request with an empty deck leaves both hands, the deck
and the discard pile unchanged, sets the deck-empty message, and passes the
Turn to the other side. -/
theorem claim_C5_deck_empty_draw (s : GameState) (t : Turn) (h : s.deck = []) :
    (drawCard t s).playerHand = s.playerHand ∧
    (drawCard t s).aiHand = s.aiHand ∧
    (drawCard t s).deck = s.deck ∧
    (drawCard t s).discardPile = s.discardPile ∧
    (drawCard t s).message = "Deck is empty! Skipping turn." ∧
    (drawCard t s).turn = otherTurn t := by
  simp [drawCard, h]

/-- A concrete state with an empty deck, used to witness claim C5. -/
def cexState5 : GameState :=
  { deck := []
    playerHand := [⟨0, Suit.hearts, Rank.two⟩]
    aiHand := [⟨1, Suit.clubs, Rank.three⟩]
    discardPile := [⟨2, Suit.spades, Rank.five⟩]
    currentSuit := some Suit.spades
    turn := .player
    status := .playing
    showSuitSelector := false
    message := "" }

/-- Claim C5 witness at a concrete empty-deck state. -/
theorem claim_C5_deck_empty_draw_witness :
    (drawCard .player cexState5).playerHand = cexState5.playerHand ∧
    (drawCard .player cexState5).aiHand = cexState5.aiHand ∧
    (drawCard .player cexState5).deck = cexState5.deck ∧
    (drawCard .player cexState5).discardPile = cexState5.discardPile ∧
    (drawCard .player cexState5).message = "Deck is empty! Skipping turn." ∧
    (drawCard .player cexState5).turn = otherTurn .player :=
  claim_C5_deck_empty_draw cexState5 .player rfl

/-- Claim C4: when the player draws from a non-empty deck, the Turn passes
to the opponent exactly when the drawn card (the last element of the deck
sequence) is not playable at the moment of drawing; otherwise the Turn
remains with the player. -/
theorem claim_C4_player_draw (s : GameState) (drawn : Card)
    (hd : s.deck.getLast? = some drawn) (ht : s.turn = .player) :
    (canPlayB s.currentSuit s.discardPile drawn = false →
      (drawCard .player s).turn = .ai) ∧
    (canPlayB s.currentSuit s.discardPile drawn = true →
      (drawCard .player s).turn = .player) := by
  cases hcp : canPlayB s.currentSuit s.discardPile drawn <;>
    simp [drawCard, hd, hcp, ht]

/-- A concrete state used to witness claim C4: the 2 of Hearts about to be
drawn is unplayable against Active Suit Spades and a 5 on top. -/
def cexState4 : GameState :=
  { deck := [⟨0, Suit.hearts, Rank.two⟩]
    playerHand := [⟨1, Suit.clubs, Rank.three⟩]
    aiHand := [⟨2, Suit.clubs, Rank.four⟩]
    discardPile := [⟨3, Suit.spades, Rank.five⟩]
    currentSuit := some Suit.spades
    turn := .player
    status := .playing
    showSuitSelector := false
    message := "" }

/-- Claim C4 witness: drawing the unplayable 2 of Hearts hands the Turn to
the opponent. -/
theorem claim_C4_player_draw_witness : (drawCard .player cexState4).turn = .ai :=
  (claim_C4_player_draw cexState4 ⟨0, Suit.hearts, Rank.two⟩ rfl rfl).1 (by decide)

lemma firstMaxBy_eq_none_iff (cnt : Suit → Nat) (ks : List Suit) :
    firstMaxBy cnt ks = none ↔ ks = [] := by
  cases ks with
  | nil => simp [firstMaxBy]
  | cons a rest =>
    simp only [firstMaxBy]
    cases h : firstMaxBy cnt rest
    · simp
    · dsimp only
      split_ifs <;> simp

lemma firstMaxBy_spec (cnt : Suit → Nat) (ks : List Suit) (m : Suit)
    (h : firstMaxBy cnt ks = some m) : m ∈ ks ∧ ∀ k ∈ ks, cnt k ≤ cnt m := by
  induction ks generalizing m with
  | nil => simp [firstMaxBy] at h
  | cons a rest ih =>
    simp only [firstMaxBy] at h
    cases hr : firstMaxBy cnt rest with
    | none =>
      rw [hr] at h
      dsimp only at h
      simp only [Option.some.injEq] at h
      subst h
      have hrest : rest = [] := (firstMaxBy_eq_none_iff cnt rest).mp hr
      subst hrest
      simp
    | some b =>
      rw [hr] at h
      dsimp only at h
      obtain ⟨hmem, hmax⟩ := ih b hr
      by_cases hcmp : cnt a < cnt b
      · rw [if_pos hcmp] at h
        simp only [Option.some.injEq] at h
        subst h
        refine ⟨List.mem_cons_of_mem a hmem, ?_⟩
        intro k hk
        rcases List.mem_cons.mp hk with h1 | h2
        · subst h1; exact le_of_lt hcmp
        · exact hmax k h2
      · rw [if_neg hcmp] at h
        simp only [Option.some.injEq] at h
        subst h
        refine ⟨List.mem_cons_self a rest, ?_⟩
        intro k hk
        rcases List.mem_cons.mp hk with h1 | h2
        · subst h1; exact le_rfl
        · exact le_trans (hmax k h2) (le_of_not_lt hcmp)

lemma mem_insertKey (k x : Suit) (ks : List Suit) :
    x ∈ insertKey k ks ↔ x ∈ ks ∨ x = k := by
  unfold insertKey
  split_ifs with h
  · constructor
    · exact Or.inl
    · rintro (hx | rfl)
      · exact hx
      · exact h
  · simp

lemma mem_foldl_insertKey (l : List Card) (acc : List Suit) (x : Suit) :
    x ∈ l.foldl (fun ks c => insertKey c.suit ks) acc ↔
      x ∈ acc ∨ ∃ c ∈ l, c.suit = x := by
  induction l generalizing acc with
  | nil => simp
  | cons a rest ih =>
    simp only [List.foldl_cons, ih, mem_insertKey]
    constructor
    · rintro ((h | h) | h)
      · exact Or.inl h
      · exact Or.inr ⟨a, List.mem_cons_self a rest, h.symm⟩
      · obtain ⟨c, hc, hcs⟩ := h
        exact Or.inr ⟨c, List.mem_cons_of_mem a hc, hcs⟩
    · rintro (h | ⟨c, hc, hcs⟩)
      · exact Or.inl (Or.inl h)
      · rcases List.mem_cons.mp hc with rfl | h2
        · exact Or.inl (Or.inr hcs.symm)
        · exact Or.inr ⟨c, h2, hcs⟩

lemma mem_suitKeys (hand : List Card) (x : Suit) :
    x ∈ suitKeys hand ↔ ∃ c ∈ hand, c.suit = x := by
  simp [suitKeys, mem_foldl_insertKey]

lemma suitCount_eq_zero (hand : List Card) (x : Suit) (h : x ∉ suitKeys hand) :
    suitCount hand x = 0 := by
  rw [suitCount, List.countP_eq_zero]
  intro c hc
  simp only [decide_eq_true_eq]
  intro hcs
  exact h ((mem_suitKeys hand x).mpr ⟨c, hc, hcs⟩)

/-- The AI's chosen suit maximises the suit count over the iterated hand. -/
lemma bestSuit_max (hand : List Card) (t : Suit) :
    suitCount hand t ≤ suitCount hand (bestSuit hand) := by
  unfold bestSuit
  cases h : firstMaxBy (suitCount hand) (suitKeys hand) with
  | none =>
    have hk : suitKeys hand = [] := (firstMaxBy_eq_none_iff _ _).mp h
    have h0 : suitCount hand t = 0 := suitCount_eq_zero hand t (by simp [hk])
    simp [h0]
  | some m =>
    obtain ⟨hmem, hmax⟩ := firstMaxBy_spec _ _ _ h
    by_cases ht : t ∈ suitKeys hand
    · simpa using hmax t ht
    · simp [suitCount_eq_zero hand t ht]

@[simp] lemma playCard_discardPile (c : Card) (t : Turn) (s : GameState) :
    (playCard c t s).discardPile = s.discardPile ++ [c] := by
  cases t <;> by_cases h8 : c.rank = Rank.eight <;> simp [playCard, h8]

@[simp] lemma playCard_deck (c : Card) (t : Turn) (s : GameState) :
    (playCard c t s).deck = s.deck := by
  cases t <;> by_cases h8 : c.rank = Rank.eight <;> simp [playCard, h8]

@[simp] lemma playCard_playerHand_player (c : Card) (s : GameState) :
    (playCard c .player s).playerHand = removeById s.playerHand c := by
  by_cases h8 : c.rank = Rank.eight <;> simp [playCard, h8]

@[simp] lemma playCard_aiHand_player (c : Card) (s : GameState) :
    (playCard c .player s).aiHand = s.aiHand := by
  by_cases h8 : c.rank = Rank.eight <;> simp [playCard, h8]

@[simp] lemma playCard_playerHand_ai (c : Card) (s : GameState) :
    (playCard c .ai s).playerHand = s.playerHand := by
  by_cases h8 : c.rank = Rank.eight <;> simp [playCard, h8]

@[simp] lemma playCard_aiHand_ai (c : Card) (s : GameState) :
    (playCard c .ai s).aiHand = removeById s.aiHand c := by
  by_cases h8 : c.rank = Rank.eight <;> simp [playCard, h8]

lemma playCard_currentSuit_player (c : Card) (s : GameState) :
    (playCard c .player s).currentSuit = some c.suit := by
  by_cases h8 : c.rank = Rank.eight <;> simp [playCard, h8]

lemma playCard_currentSuit_ai_nonEight (c : Card) (s : GameState)
    (h8 : ¬ c.rank = Rank.eight) :
    (playCard c .ai s).currentSuit = some c.suit := by
  simp [playCard, h8]

lemma playCard_currentSuit_ai_eight (c : Card) (s : GameState)
    (h8 : c.rank = Rank.eight) :
    (playCard c .ai s).currentSuit = some (bestSuit s.aiHand) := by
  simp [playCard, h8]

lemma removeById_of_not_mem_id (l : List Card) (c : Card)
    (h : ∀ x ∈ l, ¬ x.id = c.id) : removeById l c = l := by
  rw [removeById, List.filter_eq_self]
  intro x hx
  simpa using h x hx

/-- The opponent hand of the C3 counterexample: an Eight of Diamonds, one
more Diamond, and two Hearts. -/
def cexHand3 : List Card :=
  [⟨0, Suit.diamonds, Rank.eight⟩, ⟨1, Suit.diamonds, Rank.two⟩,
   ⟨2, Suit.hearts, Rank.king⟩, ⟨3, Suit.hearts, Rank.queen⟩]

/-- A concrete mid-game state in which the AI plays its Eight of Diamonds. -/
def cexState3 : GameState :=
  { deck := []
    playerHand := [⟨4, Suit.clubs, Rank.three⟩]
    aiHand := cexHand3
    discardPile := [⟨5, Suit.spades, Rank.five⟩]
    currentSuit := some Suit.spades
    turn := .ai
    status := .playing
    showSuitSelector := false
    message := "" }

/-- The Eight of Diamonds played by the AI in the C3 counterexample. -/
def cexEight3 : Card := ⟨0, Suit.diamonds, Rank.eight⟩

/-- Claim C3 counterexample: after the AI plays the Eight of Diamonds from
the hand [8D, 2D, KH, QH], the hand remaining after removal has two Hearts
and only one Diamond, yet the code chooses Diamonds (it counts the hand
before removal, where the played Eight makes Diamonds tie with Hearts and
win the first-occurrence tie-break), so the new Active Suit is not the most
frequent suit of the remaining hand. -/
theorem claim_C3_counterexample :
    (playCard cexEight3 .ai cexState3).currentSuit = some Suit.diamonds ∧
    (removeById cexState3.aiHand cexEight3).countP
      (fun c => decide (c.suit = Suit.hearts)) = 2 ∧
    (removeById cexState3.aiHand cexEight3).countP
      (fun c => decide (c.suit = Suit.diamonds)) = 1 := by
  decide

/-- Claim C3 amended: when the opponent plays an Eight, the new Active Suit
is the suit chosen by bestSuit over the opponent's hand as iterated by the
code, i.e. the hand BEFORE the played Eight is removed (so the count
includes the played Eight); that choice maximises the suit count over that
hand, deterministically (ties go to the suit occurring first in the hand),
and defaults to Spades only when that whole hand is empty. -/
theorem claim_C3_amended (s : GameState) (c : Card) (h8 : c.rank = Rank.eight) :
    (playCard c .ai s).currentSuit = some (bestSuit s.aiHand) ∧
    (s.aiHand = [] → bestSuit s.aiHand = Suit.spades) ∧
    (∀ t : Suit, suitCount s.aiHand t ≤ suitCount s.aiHand (bestSuit s.aiHand)) := by
  refine ⟨playCard_currentSuit_ai_eight c s h8, ?_, fun t => bestSuit_max s.aiHand t⟩
  intro h
  rw [h]
  rfl

/-- Claim C3 amended witness, at the concrete counterexample state. -/
theorem claim_C3_amended_witness :
    (playCard cexEight3 .ai cexState3).currentSuit = some (bestSuit cexState3.aiHand) ∧
    (cexState3.aiHand = [] → bestSuit cexState3.aiHand = Suit.spades) ∧
    (∀ t : Suit, suitCount cexState3.aiHand t ≤
      suitCount cexState3.aiHand (bestSuit cexState3.aiHand)) :=
  claim_C3_amended cexState3 cexEight3 rfl

/-- A terminal-status state holding only a King of Hearts in the AI hand,
used for the C10 counterexample. -/
def cexState10 : GameState :=
  { deck := []
    playerHand := []
    aiHand := [⟨0, Suit.hearts, Rank.king⟩]
    discardPile := [⟨1, Suit.spades, Rank.two⟩]
    currentSuit := some Suit.spades
    turn := .ai
    status := .ai_won
    showSuitSelector := false
    message := "" }

/-- An Eight of Diamonds that is in nobody's hand, for the C10 counterexample. -/
def cexCard10 : Card := ⟨2, Suit.diamonds, Rank.eight⟩

/-- Claim C10 counterexample: playing an Eight of Diamonds that the AI does
not hold, in a terminal state, does append it to the discard pile and leave
the AI hand unchanged, but the resulting Active Suit is Hearts (the AI's
suit-choice heuristic), not the card's own suit Diamonds — so the claim's
"sets Active Suit to the card's suit" does not hold for every card and side. -/
theorem claim_C10_counterexample :
    (playCard cexCard10 .ai cexState10).discardPile =
      cexState10.discardPile ++ [cexCard10] ∧
    (playCard cexCard10 .ai cexState10).aiHand = cexState10.aiHand ∧
    ¬ (playCard cexCard10 .ai cexState10).currentSuit = some cexCard10.suit := by
  decide

/-- Claim C10 amended: playCard enforces no precondition — for every card,
side and state (playable or not, held or not, terminal or not) it appends
the card to the discard pile, leaves the deck and the other side's hand
unchanged, removes the card from the acting hand by id (a no-op when the id
is absent, while the card is still appended), and sets Active Suit to the
card's suit except when the opponent plays an Eight, in which case Active
Suit is the opponent's heuristic suit choice.  Legality and status gating
exist only at the click-handling layer. -/
theorem claim_C10_amended (c : Card) (t : Turn) (s : GameState) :
    (playCard c t s).discardPile = s.discardPile ++ [c] ∧
    (playCard c t s).deck = s.deck ∧
    (t = .player → (playCard c t s).aiHand = s.aiHand ∧
      (playCard c t s).playerHand = removeById s.playerHand c) ∧
    (t = .ai → (playCard c t s).playerHand = s.playerHand ∧
      (playCard c t s).aiHand = removeById s.aiHand c) ∧
    (t = .player → (∀ x ∈ s.playerHand, ¬ x.id = c.id) →
      (playCard c t s).playerHand = s.playerHand) ∧
    (t = .ai → (∀ x ∈ s.aiHand, ¬ x.id = c.id) →
      (playCard c t s).aiHand = s.aiHand) ∧
    (¬ (c.rank = Rank.eight ∧ t = .ai) →
      (playCard c t s).currentSuit = some c.suit) ∧
    (c.rank = Rank.eight → t = .ai →
      (playCard c t s).currentSuit = some (bestSuit s.aiHand)) := by
  cases t with
  | player =>
    refine ⟨playCard_discardPile c .player s, playCard_deck c .player s,
      fun _ => ⟨playCard_aiHand_player c s, playCard_playerHand_player c s⟩,
      by simp, ?_, by simp, fun _ => playCard_currentSuit_player c s, by simp⟩
    intro _ h
    rw [playCard_playerHand_player, removeById_of_not_mem_id _ _ h]
  | ai =>
    refine ⟨playCard_discardPile c .ai s, playCard_deck c .ai s,
      by simp, fun _ => ⟨playCard_playerHand_ai c s, playCard_aiHand_ai c s⟩,
      by simp, ?_, ?_, fun h8 _ => playCard_currentSuit_ai_eight c s h8⟩
    · intro _ h
      rw [playCard_aiHand_ai, removeById_of_not_mem_id _ _ h]
    · intro h
      exact playCard_currentSuit_ai_nonEight c s (fun h8 => h ⟨h8, rfl⟩)

/-- Claim C10 amended witness, at the concrete counterexample input. -/
theorem claim_C10_amended_witness :
    (playCard cexCard10 .ai cexState10).discardPile =
      cexState10.discardPile ++ [cexCard10] ∧
    (playCard cexCard10 .ai cexState10).aiHand = cexState10.aiHand ∧
    (playCard cexCard10 .ai cexState10).currentSuit =
      some (bestSuit cexState10.aiHand) := by
  obtain ⟨h1, _, _, h4, _, h6, _, h8⟩ :=
    claim_C10_amended cexCard10 .ai cexState10
  exact ⟨h1, h6 rfl (by decide), h8 rfl rfl⟩

/-- Claim C8: the AI plays the first playable non-Eight in hand order when
one exists, otherwise the first playable card (necessarily an Eight); with
no playable card and a non-empty deck it draws the top (last) card of the
deck and ends its turn unconditionally, handing the Turn to the player
without re-checking whether the drawn card is playable. -/
theorem claim_C8_ai_decision (s : GameState) :
    (∀ c rest,
      (s.aiHand.filter (fun c => canPlayB s.currentSuit s.discardPile c)).filter
        (fun c => decide (¬ c.rank = Rank.eight)) = c :: rest →
      aiTurn s = playCard c .ai s) ∧
    (∀ c rest,
      (s.aiHand.filter (fun c => canPlayB s.currentSuit s.discardPile c)).filter
        (fun c => decide (¬ c.rank = Rank.eight)) = [] →
      s.aiHand.filter (fun c => canPlayB s.currentSuit s.discardPile c) = c :: rest →
      aiTurn s = playCard c .ai s ∧ c.rank = Rank.eight) ∧
    (s.aiHand.filter (fun c => canPlayB s.currentSuit s.discardPile c) = [] →
      ∀ drawn, s.deck.getLast? = some drawn →
        (aiTurn s).turn = .player ∧
        (aiTurn s).aiHand = s.aiHand ++ [drawn] ∧
        (aiTurn s).deck = s.deck.dropLast ∧
        (aiTurn s).playerHand = s.playerHand ∧
        (aiTurn s).discardPile = s.discardPile) := by
  refine ⟨?_, ?_, ?_⟩
  · intro c rest h
    unfold aiTurn
    dsimp only
    rw [h]
  · intro c rest hne hp
    have h8 : c.rank = Rank.eight := by
      rw [hp] at hne
      have := List.filter_eq_nil_iff.mp hne c (List.mem_cons_self c rest)
      simpa using this
    refine ⟨?_, h8⟩
    unfold aiTurn
    dsimp only
    rw [hp]
    simp only [List.filter_cons, List.filter_nil]
    rw [hp] at hne
    simp only [List.filter_cons] at hne
    rw [if_neg (by simp [h8])]
    rw [if_neg (by simp [h8])] at hne
    rw [hne]
  · intro hp drawn hd
    have hdne : s.deck ≠ [] := by
      intro h0
      rw [h0] at hd
      simp at hd
    have hlen : s.deck.length > 0 := List.length_pos.mpr hdne
    unfold aiTurn
    dsimp only
    rw [hp]
    simp only [List.filter_nil]
    rw [if_pos hlen]
    simp [drawCard, hd]

/-- A concrete state used to witness claim C8: the AI's King of Spades is
playable by suit match and is not an Eight. -/
def cexState8 : GameState :=
  { deck := []
    playerHand := [⟨0, Suit.hearts, Rank.two⟩]
    aiHand := [⟨1, Suit.spades, Rank.king⟩]
    discardPile := [⟨2, Suit.spades, Rank.five⟩]
    currentSuit := some Suit.spades
    turn := .ai
    status := .playing
    showSuitSelector := false
    message := "" }

/-- Claim C8 witness: at the concrete state the AI plays its first playable
non-Eight. -/
theorem claim_C8_ai_decision_witness :
    aiTurn cexState8 = playCard ⟨1, Suit.spades, Rank.king⟩ .ai cexState8 :=
  (claim_C8_ai_decision cexState8).1 ⟨1, Suit.spades, Rank.king⟩ [] (by decide)

lemma findFirstNonEight_spec (l : List Card) (c : Card) (r : List Card)
    (h : findFirstNonEight l = some (c, r)) :
    l.find? (fun x => decide (¬ x.rank = Rank.eight)) = some c ∧
    ¬ c.rank = Rank.eight ∧ List.Perm (c :: r) l := by
  induction l generalizing c r with
  | nil => simp [findFirstNonEight] at h
  | cons a rest ih =>
    by_cases ha : a.rank = Rank.eight
    · simp only [findFirstNonEight, if_pos ha] at h
      cases hr : findFirstNonEight rest with
      | none => rw [hr] at h; simp at h
      | some p =>
        rw [hr] at h
        simp only [Option.map_some', Option.some.injEq] at h
        have h1 : p.1 = c := congrArg Prod.fst h
        have h2 : a :: p.2 = r := congrArg Prod.snd h
        obtain ⟨hfind, h8, hperm⟩ := ih p.1 p.2 (by rw [hr])
        subst h1
        subst h2
        refine ⟨?_, h8, ?_⟩
        · rw [List.find?_cons_of_neg _ (by simp [ha]), hfind]
        · exact (List.Perm.swap a p.1 p.2).trans (hperm.cons a)
    · simp only [findFirstNonEight, if_neg ha] at h
      simp only [Option.some.injEq] at h
      have h1 : a = c := congrArg Prod.fst h
      have h2 : rest = r := congrArg Prod.snd h
      subst h1
      subst h2
      refine ⟨?_, ha, List.Perm.refl _⟩
      rw [List.find?_cons_of_pos _ (by simp [ha])]

lemma findFirstNonEight_isSome (l : List Card)
    (hlt : l.countP (fun c => decide (c.rank = Rank.eight)) < l.length) :
    (findFirstNonEight l).isSome := by
  induction l with
  | nil => simp at hlt
  | cons a rest ih =>
    by_cases ha : a.rank = Rank.eight
    · simp only [findFirstNonEight, if_pos ha]
      have hlt2 : rest.countP (fun c => decide (c.rank = Rank.eight)) < rest.length := by
        rw [List.countP_cons, List.length_cons] at hlt
        simp only [ha, decide_True, if_true] at hlt
        omega
      cases hfr : findFirstNonEight rest with
      | none =>
        have := ih hlt2
        rw [hfr] at this
        simp at this
      | some p => simp [hfr]
    · simp [findFirstNonEight, ha]

lemma createDeck_length : createDeck.length = 52 := by rfl

lemma createDeck_ids : createDeck.map Card.id = List.range 52 := by rfl

lemma createDeck_countP_eight :
    createDeck.countP (fun c => decide (c.rank = Rank.eight)) = 4 := by rfl

lemma createDeck_ids_nodup : (createDeck.map Card.id).Nodup := by
  rw [createDeck_ids]
  exact List.nodup_range 52

/-- Claim C2: setup from any shuffled 52-card deck deals the first 8 cards
to the player and the next 8 to the opponent, seeds the discard pile with
the first non-Eight card from the front of the remaining deck (so the
initial discard is never an Eight), sets Active Suit to that card's suit,
Turn to player and Status to playing. -/
theorem claim_C2_setup (d : List Card) (hd : List.Perm d createDeck) :
    ∃ s0 fd, initGame d = some s0 ∧
      (d.drop 16).find? (fun x => decide (¬ x.rank = Rank.eight)) = some fd ∧
      s0.playerHand = d.take 8 ∧
      s0.aiHand = (d.drop 8).take 8 ∧
      s0.discardPile = [fd] ∧
      ¬ fd.rank = Rank.eight ∧
      s0.currentSuit = some fd.suit ∧
      s0.turn = Turn.player ∧
      s0.status = GameStatus.playing := by
  have hlen : d.length = 52 := by rw [hd.length_eq, createDeck_length]
  have hcap : d.countP (fun c => decide (c.rank = Rank.eight)) = 4 := by
    rw [hd.countP_eq, createDeck_countP_eight]
  have hsub : (d.drop 16).countP (fun c => decide (c.rank = Rank.eight)) ≤ 4 := by
    rw [← hcap]
    exact (List.drop_sublist 16 d).countP_le _
  have hdlen : (d.drop 16).length = 36 := by
    rw [List.length_drop]
    omega
  have hcnt : (d.drop 16).countP (fun c => decide (c.rank = Rank.eight)) <
      (d.drop 16).length := by omega
  have hs := findFirstNonEight_isSome _ hcnt
  cases hff : findFirstNonEight (d.drop 16) with
  | none =>
    rw [hff] at hs
    simp at hs
  | some p =>
    obtain ⟨hfind, h8, _⟩ := findFirstNonEight_spec _ p.1 p.2 (by rw [hff])
    refine ⟨{ deck := p.2, playerHand := d.take 8, aiHand := (d.drop 8).take 8,
              discardPile := [p.1], currentSuit := some p.1.suit, turn := .player,
              status := .playing, showSuitSelector := false,
              message := "Your turn! Match the suit or rank." }, p.1,
      ?_, hfind, rfl, rfl, rfl, h8, rfl, rfl, rfl⟩
    unfold initGame
    dsimp only
    rw [hff]
    rfl

/-- Claim C2 witness: setup succeeds on the canonical deck itself. -/
theorem claim_C2_setup_witness :
    ∃ s0 fd, initGame createDeck = some s0 ∧
      (createDeck.drop 16).find? (fun x => decide (¬ x.rank = Rank.eight)) = some fd ∧
      s0.playerHand = createDeck.take 8 ∧
      s0.aiHand = (createDeck.drop 8).take 8 ∧
      s0.discardPile = [fd] ∧
      ¬ fd.rank = Rank.eight ∧
      s0.currentSuit = some fd.suit ∧
      s0.turn = Turn.player ∧
      s0.status = GameStatus.playing :=
  claim_C2_setup createDeck (List.Perm.refl createDeck)

lemma deck_split (l : List Card) (x : Card) (h : l.getLast? = some x) :
    l = l.dropLast ++ [x] := by
  cases l using List.reverseRecOn with
  | nil => simp at h
  | append_singleton ys y =>
    rw [List.getLast?_concat] at h
    simp only [Option.some.injEq] at h
    subst h
    rw [List.dropLast_concat]

lemma allCards_drawCard (t : Turn) (s : GameState) :
    List.Perm (allCards (drawCard t s)) (allCards s) := by
  cases hgl : s.deck.getLast? with
  | none =>
    unfold drawCard
    rw [hgl]
    exact List.Perm.refl (allCards s)
  | some drawn =>
    have hall : allCards s =
        (s.deck.dropLast ++ [drawn]) ++ s.playerHand ++ s.aiHand ++ s.discardPile := by
      unfold allCards
      rw [← deck_split s.deck drawn hgl]
    unfold drawCard
    rw [hgl, hall]
    dsimp only
    cases t with
    | player =>
      split_ifs <;>
        (rw [List.perm_iff_count]; intro a; dsimp only [allCards];
         simp only [List.count_append]; omega)
    | ai =>
      rw [List.perm_iff_count]
      intro a
      dsimp only [allCards]
      simp only [List.count_append]
      omega

lemma hands_nodup (s : GameState) (hnd : ((allCards s).map Card.id).Nodup) :
    (s.playerHand.map Card.id).Nodup ∧ (s.aiHand.map Card.id).Nodup := by
  unfold allCards at hnd
  simp only [List.map_append] at hnd
  exact ⟨((hnd.of_append_left).of_append_left).of_append_right,
    (hnd.of_append_left).of_append_right⟩

lemma removeById_cons_perm (hand : List Card) (c : Card)
    (hnd : (hand.map Card.id).Nodup) (hc : c ∈ hand) :
    List.Perm (c :: removeById hand c) hand := by
  induction hand with
  | nil => simp at hc
  | cons a rest ih =>
    rw [List.map_cons, List.nodup_cons] at hnd
    obtain ⟨hna, hrest⟩ := hnd
    by_cases hid : a.id = c.id
    · have hac : c = a := by
        rcases List.mem_cons.mp hc with h1 | h2
        · exact h1
        · exact absurd (by rw [hid]; exact List.mem_map_of_mem Card.id h2) hna
      subst hac
      have h1 : removeById (c :: rest) c = removeById rest c := by
        simp [removeById, List.filter_cons]
      have h2 : removeById rest c = rest := by
        apply removeById_of_not_mem_id
        intro x hx hxid
        exact hna (by rw [← hxid]; exact List.mem_map_of_mem Card.id hx)
      rw [h1, h2]
    · have hcrest : c ∈ rest := by
        rcases List.mem_cons.mp hc with h1 | h2
        · exact absurd (by rw [h1]) hid
        · exact h2
      have h1 : removeById (a :: rest) c = a :: removeById rest c := by
        simp [removeById, List.filter_cons, hid]
      rw [h1]
      exact (List.Perm.swap a c (removeById rest c)).trans ((ih hrest hcrest).cons a)

lemma allCards_playCard_player (c : Card) (s : GameState)
    (hnd : ((allCards s).map Card.id).Nodup) (hc : c ∈ s.playerHand) :
    List.Perm (allCards (playCard c .player s)) (allCards s) := by
  have hperm := removeById_cons_perm s.playerHand c (hands_nodup s hnd).1 hc
  rw [List.perm_iff_count]
  intro a
  have hcnt := hperm.count_eq a
  rw [List.count_cons] at hcnt
  simp only [allCards, playCard_deck, playCard_playerHand_player, playCard_aiHand_player,
    playCard_discardPile, List.count_append, List.count_cons, List.count_nil]
  by_cases hac : a = c <;> simp [hac] at hcnt ⊢ <;> omega

lemma allCards_playCard_ai (c : Card) (s : GameState)
    (hnd : ((allCards s).map Card.id).Nodup) (hc : c ∈ s.aiHand) :
    List.Perm (allCards (playCard c .ai s)) (allCards s) := by
  have hperm := removeById_cons_perm s.aiHand c (hands_nodup s hnd).2 hc
  rw [List.perm_iff_count]
  intro a
  have hcnt := hperm.count_eq a
  rw [List.count_cons] at hcnt
  simp only [allCards, playCard_deck, playCard_playerHand_ai, playCard_aiHand_ai,
    playCard_discardPile, List.count_append, List.count_cons, List.count_nil]
  by_cases hac : a = c <;> simp [hac] at hcnt ⊢ <;> omega

lemma allCards_handleSuitSelect (su : Suit) (s : GameState) :
    allCards (handleSuitSelect su s) = allCards s := by
  unfold handleSuitSelect
  rw [allCards_finishTurn]
  rfl

lemma allCards_aiTurn (s : GameState) (hnd : ((allCards s).map Card.id).Nodup) :
    List.Perm (allCards (aiTurn s)) (allCards s) := by
  unfold aiTurn
  dsimp only
  cases hB : (s.aiHand.filter (fun c => canPlayB s.currentSuit s.discardPile c)).filter
      (fun c => decide (¬ c.rank = Rank.eight)) with
  | cons c cs =>
    dsimp only
    apply allCards_playCard_ai c s hnd
    have h1 : c ∈ (s.aiHand.filter (fun c => canPlayB s.currentSuit s.discardPile c)).filter
        (fun c => decide (¬ c.rank = Rank.eight)) := by
      rw [hB]
      exact List.mem_cons_self c cs
    exact List.mem_of_mem_filter (List.mem_of_mem_filter h1)
  | nil =>
    cases hA : s.aiHand.filter (fun c => canPlayB s.currentSuit s.discardPile c) with
    | cons c cs =>
      dsimp only
      apply allCards_playCard_ai c s hnd
      have h1 : c ∈ s.aiHand.filter (fun c => canPlayB s.currentSuit s.discardPile c) := by
        rw [hA]
        exact List.mem_cons_self c cs
      exact List.mem_of_mem_filter h1
    | nil =>
      dsimp only
      split_ifs
      · exact allCards_drawCard .ai s
      · exact List.Perm.refl (allCards s)

lemma step_allCards (s s' : GameState) (h : Step s s')
    (hnd : ((allCards s).map Card.id).Nodup) :
    List.Perm (allCards s') (allCards s) := by
  cases h with
  | playerPlay c ht hstat hcp hmem => exact allCards_playCard_player c s hnd hmem
  | playerDraw ht hstat => exact allCards_drawCard .player s
  | selectSuit su hsel => rw [allCards_handleSuitSelect]
  | aiMove ht hstat => exact allCards_aiTurn s hnd

lemma initGame_allCards (d : List Card) (s0 : GameState)
    (h : initGame d = some s0) : List.Perm (allCards s0) d := by
  unfold initGame at h
  dsimp only at h
  cases hff : findFirstNonEight (d.drop 16) with
  | none =>
    rw [hff] at h
    simp at h
  | some p =>
    rw [hff] at h
    simp only [Option.map_some', Option.some.injEq] at h
    subst h
    obtain ⟨-, -, hperm⟩ := findFirstNonEight_spec _ p.1 p.2 hff
    have hdd : (d.drop 8).drop 8 = d.drop 16 := by
      rw [List.drop_drop]
    have hsplit : d = d.take 8 ++ ((d.drop 8).take 8 ++ d.drop 16) := by
      rw [← hdd, List.take_append_drop, List.take_append_drop]
    rw [List.perm_iff_count]
    intro a
    have h1 := hperm.count_eq a
    rw [List.count_cons] at h1
    conv_rhs => rw [hsplit]
    dsimp only [allCards]
    simp only [List.count_append]
    by_cases hac : a = p.1
    · simp [hac] at h1 ⊢
      omega
    · simp [hac, Ne.symm hac] at h1 ⊢
      omega

/-- Claim C6: in every state reachable from setup on a shuffled 52-card
deck, the 52 cards are partitioned across deck, player hand, opponent hand
and discard pile: their concatenation is a permutation of the full deck and
its ids are pairwise distinct, so every card id appears in exactly one
container with no duplication and no loss. -/
theorem claim_C6_partition (d : List Card) (hd : List.Perm d createDeck)
    (s : GameState) (hr : Reachable d s) :
    List.Perm (allCards s) createDeck ∧ ((allCards s).map Card.id).Nodup := by
  obtain ⟨s0, hinit, hsteps⟩ := hr
  have hbase : List.Perm (allCards s0) createDeck :=
    (initGame_allCards d s0 hinit).trans hd
  have hmain : List.Perm (allCards s) createDeck := by
    induction hsteps with
    | refl => exact hbase
    | tail hab hbc ih =>
      have hnd := ((ih.map Card.id).nodup_iff).mpr createDeck_ids_nodup
      exact (step_allCards _ _ hbc hnd).trans ih
  exact ⟨hmain, ((hmain.map Card.id).nodup_iff).mpr createDeck_ids_nodup⟩

/-- Claim C6 witness: the initial state on the canonical deck. -/
theorem claim_C6_partition_witness :
    ∃ s : GameState, Reachable createDeck s ∧
      List.Perm (allCards s) createDeck ∧ ((allCards s).map Card.id).Nodup := by
  obtain ⟨s0, h⟩ : ∃ s0, initGame createDeck = some s0 := ⟨_, rfl⟩
  exact ⟨s0, ⟨s0, h, Relation.ReflTransGen.refl⟩,
    claim_C6_partition createDeck (List.Perm.refl createDeck) s0
      ⟨s0, h, Relation.ReflTransGen.refl⟩⟩

lemma drawCard_discardPile (t : Turn) (s : GameState) :
    (drawCard t s).discardPile = s.discardPile := by
  unfold drawCard
  cases s.deck.getLast? with
  | none => rfl
  | some drawn =>
    cases t with
    | player =>
      dsimp only
      split_ifs <;> rfl
    | ai => rfl

lemma aiTurn_discard (s : GameState) :
    (aiTurn s).discardPile = s.discardPile ∨
    ∃ c, (aiTurn s).discardPile = s.discardPile ++ [c] := by
  unfold aiTurn
  dsimp only
  cases hB : (s.aiHand.filter (fun c => canPlayB s.currentSuit s.discardPile c)).filter
      (fun c => decide (¬ c.rank = Rank.eight)) with
  | cons c cs =>
    dsimp only
    exact Or.inr ⟨c, playCard_discardPile c .ai s⟩
  | nil =>
    cases hA : s.aiHand.filter (fun c => canPlayB s.currentSuit s.discardPile c) with
    | cons c cs =>
      dsimp only
      exact Or.inr ⟨c, playCard_discardPile c .ai s⟩
    | nil =>
      dsimp only
      split_ifs
      · exact Or.inl (drawCard_discardPile .ai s)
      · exact Or.inl rfl

lemma step_discard_ne (s s' : GameState) (h : Step s s')
    (hne : s.discardPile ≠ []) : s'.discardPile ≠ [] := by
  cases h with
  | playerPlay c ht hstat hcp hmem =>
    rw [playCard_discardPile]
    simp
  | playerDraw ht hstat =>
    rw [drawCard_discardPile]
    exact hne
  | selectSuit su hsel =>
    have hds : (handleSuitSelect su s).discardPile = s.discardPile := by
      simp [handleSuitSelect]
    rw [hds]
    exact hne
  | aiMove ht hstat =>
    rcases aiTurn_discard s with h1 | ⟨c, h1⟩ <;> rw [h1] <;> simp [hne]

/-- Claim C9: in every state reachable after setup the discard pile is
non-empty, so the legality check's lookup of the top discard card is always
in bounds (canPlayChecked returns a value for every card); moreover for a
non-Eight card the check is only well-defined under that non-emptiness
precondition (on an empty pile it yields no value). -/
theorem claim_C9_discard_safety (d : List Card) (s : GameState)
    (hr : Reachable d s) :
    s.discardPile ≠ [] ∧
    (∀ c : Card, (canPlayChecked s.currentSuit s.discardPile c).isSome) ∧
    (∀ (cs : Option Suit) (c : Card), ¬ c.rank = Rank.eight →
      canPlayChecked cs [] c = none) := by
  have hne : s.discardPile ≠ [] := by
    obtain ⟨s0, hinit, hsteps⟩ := hr
    have h0 : s0.discardPile ≠ [] := by
      unfold initGame at hinit
      dsimp only at hinit
      cases hff : findFirstNonEight (d.drop 16) with
      | none =>
        rw [hff] at hinit
        simp at hinit
      | some p =>
        rw [hff] at hinit
        simp only [Option.map_some', Option.some.injEq] at hinit
        subst hinit
        simp
    induction hsteps with
    | refl => exact h0
    | tail hab hbc ih => exact step_discard_ne _ _ hbc ih
  refine ⟨hne, ?_, ?_⟩
  · intro c
    unfold canPlayChecked
    split_ifs
    · simp
    · simp [Option.isSome_map', List.getLast?_isSome, hne]
  · intro cs c h8
    simp [canPlayChecked, h8]

/-- Claim C9 witness: the initial state on the canonical deck has a
non-empty discard pile. -/
theorem claim_C9_discard_safety_witness :
    ∃ s : GameState, Reachable createDeck s ∧ s.discardPile ≠ [] := by
  obtain ⟨s0, h⟩ : ∃ s0, initGame createDeck = some s0 := ⟨_, rfl⟩
  exact ⟨s0, ⟨s0, h, Relation.ReflTransGen.refl⟩,
    (claim_C9_discard_safety createDeck s0 ⟨s0, h, Relation.ReflTransGen.refl⟩).1⟩

lemma handleSuitSelect_status (su : Suit) (s : GameState) :
    (handleSuitSelect su s).status = s.status ∨
    (handleSuitSelect su s).status = GameStatus.player_won ∨
    (handleSuitSelect su s).status = GameStatus.ai_won := by
  unfold handleSuitSelect
  have h := finishTurn_status .ai
    { s with currentSuit := some su, showSuitSelector := false,
             message := "You chose " ++ suitName su ++ "!" }
  simpa using h

/-- Claim C7: once Status is terminal, no step of the system changes any
hand, the deck or the discard pile (plays and draws are rejected by the
click-handler and AI-effect gates; only the suit-selection dialog can still
act, and it moves no cards), and no step re-enters playing — only the
explicit restart (initGame) produces a playing state again. -/
theorem claim_C7_terminal (s s' : GameState)
    (hterm : ¬ s.status = GameStatus.playing) (h : Step s s') :
    s'.deck = s.deck ∧ s'.playerHand = s.playerHand ∧ s'.aiHand = s.aiHand ∧
    s'.discardPile = s.discardPile ∧ ¬ s'.status = GameStatus.playing := by
  cases h with
  | playerPlay c ht hstat hcp hmem => exact absurd hstat hterm
  | playerDraw ht hstat => exact absurd hstat hterm
  | aiMove ht hstat => exact absurd hstat hterm
  | selectSuit su hsel =>
    refine ⟨by simp [handleSuitSelect], by simp [handleSuitSelect],
      by simp [handleSuitSelect], by simp [handleSuitSelect], ?_⟩
    rcases handleSuitSelect_status su s with h1 | h1 | h1 <;> rw [h1]
    · exact hterm
    · simp
    · simp

/-- A terminal state with the suit-selection dialog open, witnessing C7. -/
def cexState7 : GameState :=
  { deck := [⟨0, Suit.hearts, Rank.two⟩]
    playerHand := []
    aiHand := [⟨1, Suit.clubs, Rank.three⟩]
    discardPile := [⟨2, Suit.spades, Rank.five⟩]
    currentSuit := some Suit.spades
    turn := .player
    status := .ai_won
    showSuitSelector := true
    message := "" }

/-- Claim C7 witness: the only step enabled in the terminal state cexState7
moves no cards and stays terminal. -/
theorem claim_C7_terminal_witness :
    (handleSuitSelect Suit.hearts cexState7).deck = cexState7.deck ∧
    (handleSuitSelect Suit.hearts cexState7).playerHand = cexState7.playerHand ∧
    (handleSuitSelect Suit.hearts cexState7).aiHand = cexState7.aiHand ∧
    (handleSuitSelect Suit.hearts cexState7).discardPile = cexState7.discardPile ∧
    ¬ (handleSuitSelect Suit.hearts cexState7).status = GameStatus.playing :=
  claim_C7_terminal cexState7 (handleSuitSelect Suit.hearts cexState7)
    (by decide) (Step.selectSuit cexState7 Suit.hearts rfl)

end CrazyEights
